import Mathlib

/-!
Verification development for the go-short-link repository.

Part 1 embeds the only source file of the repository, src/docs/conf.py
(a Sphinx documentation-site build configuration consisting solely of
constant top-level assignments), as a list of Python statements over a
small literal-value datatype, together with a module evaluator.

Part 2 models the short-link service core that the specification
describes; no implementation of that service is present under src/, so
those definitions are modelled from the specification text itself and
each carries a doc comment saying so.
-/

namespace Conf

/-- A scalar Python literal occurring in conf.py: a string or a boolean. -/
inductive PyScalar where
  | str (s : String)
  | bool (b : Bool)
deriving DecidableEq

/-- A Python literal value as it appears in conf.py: a scalar, a list of
scalars, or a string-keyed dict of scalars.  Every right-hand side in
src/docs/conf.py has one of these three shapes. -/
inductive PyLit where
  | scalar (v : PyScalar)
  | list (xs : List PyScalar)
  | dict (kvs : List (String × PyScalar))
deriving DecidableEq

/-- A top-level Python statement shape.  conf.py contains only constant
assignments; the other constructors exist so that the absence of function
definitions, environment reads and I/O in the module is a checkable fact
rather than a vacuous one. -/
inductive PyStmt where
  | assign (name : String) (v : PyLit)
  | assignFromEnv (name : String) (var : String)
  | funcDef (name : String)
  | ioStmt (desc : String)
deriving DecidableEq

/-- True exactly when a statement is a constant assignment. -/
def isConstAssign : PyStmt → Bool
  | .assign _ _ => true
  | _ => false

/-- Evaluate a module (a list of statements) under an external input map
modelling environment variables, files and arguments.  Constant
assignments ignore the input map; an environment-read assignment
consults it; function definitions and I/O statements bind nothing. -/
def evalModule : List PyStmt → (String → Option String) → List (String × PyLit)
  | [], _ => []
  | PyStmt.assign n v :: rest, env => (n, v) :: evalModule rest env
  | PyStmt.assignFromEnv n var :: rest, env =>
      (n, PyLit.scalar (PyScalar.str ((env var).getD ""))) :: evalModule rest env
  | PyStmt.funcDef _ :: rest, env => evalModule rest env
  | PyStmt.ioStmt _ :: rest, env => evalModule rest env

-- src/docs/conf.py, line 9
def project : String := "Go-Short-Link"
-- src/docs/conf.py, line 10
def copyright : String := "2025, Fabian Wünderich"
-- src/docs/conf.py, line 11
def author : String := "Fabian Wünderich"
-- src/docs/conf.py, line 13
def version : String := "1"
-- src/docs/conf.py, lines 18-23 (the sphinx_togglebutton line is a comment)
def extensions : List String :=
  ["myst_parser", "sphinx_rtd_theme", "sphinx_toolbox.collapse"]
-- src/docs/conf.py, line 25
def templates_path : List String := ["_templates"]
-- src/docs/conf.py, line 26
def exclude_patterns : List String :=
  ["_build", "Thumbs.db", ".DS_Store", "requirements.txt"]
-- src/docs/conf.py, line 33
def html_theme : String := "sphinx_rtd_theme"
-- src/docs/conf.py, line 34
def html_static_path : List String := ["_static"]
-- src/docs/conf.py, lines 37-39
def html_css_files : List String := ["css/custom.css"]
-- src/docs/conf.py, lines 40-42
def html_js_files : List String := ["js/custom.js"]
-- src/docs/conf.py, lines 44-48
def source_suffix : List (String × String) :=
  [(".rst", "restructuredtext"), (".txt", "markdown"), (".md", "markdown")]
-- src/docs/conf.py, lines 50-64
def myst_enable_extensions : List String :=
  ["amsmath", "attrs_inline", "colon_fence", "deflist", "dollarmath",
   "fieldlist", "html_admonition", "html_image", "linkify", "replacements",
   "smartquotes", "strikethrough", "substitution", "tasklist"]
-- src/docs/conf.py, lines 67-73
def html_context : List (String × PyScalar) :=
  [("display_github", PyScalar.bool true),
   ("github_user", PyScalar.str "fanonwue"),
   ("github_repo", PyScalar.str "go-short-link"),
   ("github_version", PyScalar.str "master"),
   ("conf_py_path", PyScalar.str "/docs/")]

/-- The module src/docs/conf.py as a statement list, in source order. -/
def confModule : List PyStmt :=
  [PyStmt.assign "project" (PyLit.scalar (PyScalar.str project)),
   PyStmt.assign "copyright" (PyLit.scalar (PyScalar.str copyright)),
   PyStmt.assign "author" (PyLit.scalar (PyScalar.str author)),
   PyStmt.assign "version" (PyLit.scalar (PyScalar.str version)),
   PyStmt.assign "extensions" (PyLit.list (extensions.map PyScalar.str)),
   PyStmt.assign "templates_path" (PyLit.list (templates_path.map PyScalar.str)),
   PyStmt.assign "exclude_patterns" (PyLit.list (exclude_patterns.map PyScalar.str)),
   PyStmt.assign "html_theme" (PyLit.scalar (PyScalar.str html_theme)),
   PyStmt.assign "html_static_path" (PyLit.list (html_static_path.map PyScalar.str)),
   PyStmt.assign "html_css_files" (PyLit.list (html_css_files.map PyScalar.str)),
   PyStmt.assign "html_js_files" (PyLit.list (html_js_files.map PyScalar.str)),
   PyStmt.assign "source_suffix"
     (PyLit.dict (source_suffix.map (fun p => (p.1, PyScalar.str p.2)))),
   PyStmt.assign "myst_enable_extensions"
     (PyLit.list (myst_enable_extensions.map PyScalar.str)),
   PyStmt.assign "html_context" (PyLit.dict html_context)]

/-- The bindings produced by evaluating conf.py (the input map is
irrelevant; the empty one is used). -/
def confBindings : List (String × PyLit) :=
  evalModule confModule (fun _ => none)

/-- The names bound by a module. -/
def boundNames (stmts : List PyStmt) : List String :=
  (evalModule stmts (fun _ => none)).map (fun p => p.1)

/-- Look a binding up by name in an evaluated module. -/
def lookupBinding (stmts : List PyStmt) (n : String) : Option PyLit :=
  ((evalModule stmts (fun _ => none)).find? (fun p => p.1 == n)).map (fun p => p.2)

/-- True when the needle occurs as a contiguous run inside the haystack. -/
def hasInfix (needle : List Char) : List Char → Bool
  | [] => needle.isEmpty
  | c :: rest => List.isPrefixOf needle (c :: rest) || hasInfix needle rest

/-- True when the string contains the substring short or Short. -/
def containsShortWord (s : String) : Bool :=
  hasInfix "short".data s.data || hasInfix "Short".data s.data

/-- True when the scalar is a string mentioning short-link wording. -/
def scalarMentions : PyScalar → Bool
  | .str s => containsShortWord s
  | .bool _ => false

/-- True when any string inside the literal (including dict keys)
mentions short-link wording. -/
def litMentionsShort : PyLit → Bool
  | .scalar v => scalarMentions v
  | .list xs => xs.any scalarMentions
  | .dict kvs => kvs.any (fun p => containsShortWord p.1 || scalarMentions p.2)

/-- The binding names belonging to the four setting kinds enumerated by
the specification sentence: theme, extensions, file associations and
GitHub link metadata. -/
def fourKindNames : List String :=
  ["html_theme", "extensions", "myst_enable_extensions", "source_suffix",
   "html_context"]

/-- True when a file name ends in one of the configured source suffixes,
i.e. Sphinx would treat it as a documentation source. -/
def isDocSource (fname : String) : Bool :=
  source_suffix.any (fun p => List.isSuffixOf p.1.data fname.data)

/-- True when a file name is excluded from the build by exclude_patterns. -/
def isExcluded (fname : String) : Bool :=
  exclude_patterns.contains fname

end Conf

namespace Short

/-- Modelled from the spec: no short-link implementation exists under
src/ (the repository fragment holds only the documentation build
configuration), so the LinkMapping record is taken from section 3 of the
specification, with the owner metadata named in sections 2 and 4.5.
Timestamps are naturals. -/
structure LinkMapping where
  shortCode : String
  targetURL : String
  createdAt : Nat
  expiresAt : Option Nat
  hitCount : Nat
  disabled : Bool
  owner : String
deriving DecidableEq

/-- Modelled from the spec: the Mapping Store of section 4.2, a durable
association from short code to mapping, here a list of mappings. -/
abbrev Store := List LinkMapping

/-- Modelled from the spec: the error taxonomy of section 7. -/
inductive Err where
  | notFound
  | conflict
  | validationError
  | exhaustionError
  | unauthorized
  | storeUnavailable
deriving DecidableEq

/-- Modelled from the spec: a resolution either redirects to a target
URL or yields the NotFound-equivalent outcome (section 4.3). -/
inductive ResolveOutcome where
  | redirect (target : String)
  | notFound
deriving DecidableEq

/-- Modelled from the spec (section 4.2): a point lookup by short code;
it returns the mapping when present regardless of expiry state. -/
def storeLookup (s : Store) (c : String) : Option LinkMapping :=
  List.find? (fun m => m.shortCode == c) s

/-- The multiset of short codes held by the store, in store order. -/
def keys (s : Store) : List String :=
  List.map LinkMapping.shortCode s

/-- Modelled from the spec (section 3): the store invariant, each short
code identifying at most one mapping. -/
def storeInv (s : Store) : Prop :=
  (keys s).Nodup

instance storeInvDecidable (s : Store) : Decidable (storeInv s) :=
  List.nodupDecidable (keys s)

/-- Modelled from the spec (section 4.2): creation is atomic per
mapping; a create for an already-present code fails with Conflict,
otherwise the mapping is added. -/
def storeCreate (s : Store) (m : LinkMapping) : Except Err Store :=
  if (storeLookup s m.shortCode).isSome then Except.error Err.conflict
  else Except.ok (m :: s)

/-- Modelled from the spec (sections 3 and 4.5): an owner-authorized
update replaces the target URL of the named mapping; the short code
itself is immutable.  Unknown codes yield NotFound, owner mismatches
Unauthorized. -/
def storeUpdate (s : Store) (c requester newTarget : String) : Except Err Store :=
  match storeLookup s c with
  | none => Except.error Err.notFound
  | some m =>
      if m.owner == requester then
        Except.ok (List.map
          (fun x => if x.shortCode == c then { x with targetURL := newTarget } else x) s)
      else Except.error Err.unauthorized

/-- Modelled from the spec (sections 3 and 4.5): an owner-authorized
soft-disable marks the named mapping disabled; nothing is deleted. -/
def storeDisable (s : Store) (c requester : String) : Except Err Store :=
  match storeLookup s c with
  | none => Except.error Err.notFound
  | some m =>
      if m.owner == requester then
        Except.ok (List.map
          (fun x => if x.shortCode == c then { x with disabled := true } else x) s)
      else Except.error Err.unauthorized

/-- Modelled from the spec (sections 3 and 4.3): a mapping with an
expiry timestamp that is not in the future is expired. -/
def isExpired (m : LinkMapping) (now : Nat) : Bool :=
  match m.expiresAt with
  | none => false
  | some e => e ≤ now

/-- Modelled from the spec (section 4.3): the Resolution Engine state
machine: NotFound when absent, NotFound on disabled or expired (never
exposing the target), otherwise a redirect to the target URL. -/
def resolve (s : Store) (now : Nat) (c : String) : ResolveOutcome :=
  match storeLookup s c with
  | none => ResolveOutcome.notFound
  | some m =>
      if m.disabled then ResolveOutcome.notFound
      else if isExpired m now then ResolveOutcome.notFound
      else ResolveOutcome.redirect m.targetURL

/-- Modelled from the spec (section 3): a derived, never-authoritative
cache entry. -/
structure CacheEntry where
  shortCode : String
  targetURL : String
  fetchedAt : Nat
deriving DecidableEq

/-- Look a cache entry up by short code. -/
def cacheLookup (cache : List CacheEntry) (c : String) : Option CacheEntry :=
  List.find? (fun e => e.shortCode == c) cache

/-- Modelled from the spec (sections 4.3, 4.4 and 8): resolution in
front of the read-through cache.  The store stays the source of truth
for mapping state, so disabled and expired mappings resolve NotFound
even when a cache entry for the code exists; on an active mapping a
cache hit serves the cached target and a miss populates the cache. -/
def resolveCached (cache : List CacheEntry) (s : Store) (now : Nat) (c : String) :
    ResolveOutcome × List CacheEntry :=
  match storeLookup s c with
  | none => (ResolveOutcome.notFound, cache)
  | some m =>
      if m.disabled then (ResolveOutcome.notFound, cache)
      else if isExpired m now then (ResolveOutcome.notFound, cache)
      else
        match cacheLookup cache c with
        | some e => (ResolveOutcome.redirect e.targetURL, cache)
        | none =>
            (ResolveOutcome.redirect m.targetURL,
             { shortCode := c, targetURL := m.targetURL, fetchedAt := now } :: cache)

/-- Modelled from the spec (sections 4.1 and 9): the bounded attempt
count of the code generator's collision-retry loop. -/
def maxGenAttempts : Nat := 16

/-- Modelled from the spec (sections 4.1 and 9): the collision-retry
loop.  The candidate enumeration is a parameter; each attempt checks the
store, retries on collision, and the loop ends with ExhaustionError once
the attempt budget is spent. -/
def genLoop (s : Store) (cand : Nat → String) : Nat → Nat → Except Err String
  | _, 0 => Except.error Err.exhaustionError
  | attempt, fuel + 1 =>
      if (storeLookup s (cand attempt)).isSome then genLoop s cand (attempt + 1) fuel
      else Except.ok (cand attempt)

/-- Modelled from the spec (section 4.1): produce a code not present in
the store, retrying on collision up to maxGenAttempts attempts. -/
def generateCode (s : Store) (cand : Nat → String) : Except Err String :=
  genLoop s cand 0 maxGenAttempts

/-- Modelled from the spec (section 4.5): a well-formed target URL with
an allowed scheme. -/
def validTargetURL (url : String) : Bool :=
  List.isPrefixOf "http://".data url.data || List.isPrefixOf "https://".data url.data

/-- Modelled from the spec (section 4.5): an expiry, when given, must be
future-dated. -/
def validExpiry (now : Nat) : Option Nat → Bool
  | none => true
  | some e => now < e

/-- Modelled from the spec (section 4.5): the Ingestion API creation
operation.  It validates the target URL and the optional expiry, takes
the custom code when given (Conflict if taken) and otherwise delegates
to the Code Generator, and persists through the Mapping Store. -/
def createReq (s : Store) (now : Nat) (owner url : String) (custom : Option String)
    (exp : Option Nat) (cand : Nat → String) : Except Err (String × Store) :=
  if validTargetURL url = false then Except.error Err.validationError
  else if validExpiry now exp = false then Except.error Err.validationError
  else
    match (match custom with
           | some c =>
               if (storeLookup s c).isSome then Except.error Err.conflict
               else Except.ok c
           | none => generateCode s cand) with
    | Except.error e => Except.error e
    | Except.ok code =>
        match storeCreate s
            { shortCode := code, targetURL := url, createdAt := now,
              expiresAt := exp, hitCount := 0, disabled := false, owner := owner } with
        | Except.error e => Except.error e
        | Except.ok s2 => Except.ok (code, s2)

end Short

namespace Demo

/-- Candidate enumeration used by the concrete generator runs. -/
def c3Cand : Nat → String := fun _ => "autogen"

/-- The store produced by the concrete successful creation. -/
def c3Store2 : Short.Store :=
  [{ shortCode := "autogen", targetURL := "https://example.com", createdAt := 0,
     expiresAt := some 100, hitCount := 0, disabled := false, owner := "alice" }]

/-- A mapping whose expiry lies in the past of the probe time 10. -/
def expiredMapping : Short.LinkMapping :=
  { shortCode := "exp1", targetURL := "https://example.com/old", createdAt := 0,
    expiresAt := some 5, hitCount := 0, disabled := false, owner := "alice" }

/-- A store holding only the expired mapping. -/
def c4Store : Short.Store := [expiredMapping]

/-- A cache that still holds an entry for the expired mapping. -/
def c4Cache : List Short.CacheEntry :=
  [{ shortCode := "exp1", targetURL := "https://example.com/old", fetchedAt := 3 }]

/-- A two-mapping store with pairwise distinct short codes. -/
def demoStore : Short.Store :=
  [{ shortCode := "a1", targetURL := "https://a.example", createdAt := 0,
     expiresAt := none, hitCount := 0, disabled := false, owner := "alice" },
   { shortCode := "b2", targetURL := "https://b.example", createdAt := 0,
     expiresAt := none, hitCount := 0, disabled := false, owner := "bob" }]

/-- demoStore after the owner-authorized disable of code a1. -/
def demoStoreDisabled : Short.Store :=
  [{ shortCode := "a1", targetURL := "https://a.example", createdAt := 0,
     expiresAt := none, hitCount := 0, disabled := true, owner := "alice" },
   { shortCode := "b2", targetURL := "https://b.example", createdAt := 0,
     expiresAt := none, hitCount := 0, disabled := false, owner := "bob" }]

/-- A store that collides with every candidate the saturated enumeration
produces. -/
def satStore : Short.Store :=
  [{ shortCode := "c0", targetURL := "https://x.example", createdAt := 0,
     expiresAt := none, hitCount := 0, disabled := false, owner := "o" }]

/-- A candidate enumeration stuck on the taken code c0. -/
def satCand : Nat → String := fun _ => "c0"

end Demo

/-- Claim C1: the program is solely a documentation-site build
configuration: every top-level statement of src/docs/conf.py is a
constant assignment of a literal (string, boolean, list or dict of
literals), so the module defines no functions, performs no I/O, and
evaluating it yields the fixed binding list confBindings whatever the
external input is. -/
theorem conf_module_only_constant_bindings :
    (∀ s ∈ Conf.confModule, Conf.isConstAssign s = true) ∧
    (∀ env : String → Option String,
      Conf.evalModule Conf.confModule env = Conf.confBindings) :=
  ⟨by decide, fun _ => rfl⟩

/-- Witness for C1 at the first statement of the module. -/
theorem conf_module_only_constant_bindings_witness :
    Conf.isConstAssign (Conf.PyStmt.assign "project"
      (Conf.PyLit.scalar (Conf.PyScalar.str Conf.project))) = true :=
  conf_module_only_constant_bindings.1 _ (by decide)

/-- Claim C2, counterexample: the module does not set only the four
enumerated kinds of settings; the binding project is produced by
evaluating conf.py yet belongs to none of the four kinds. -/
theorem conf_sets_more_than_four_kinds :
    "project" ∈ Conf.boundNames Conf.confModule ∧
    "project" ∉ Conf.fourKindNames := by decide

/-- Claim C2, amended: evaluating conf.py yields precisely the
enumerated values for the four kinds of settings the spec names (theme,
extension lists, file associations, GitHub link metadata), though the
module also binds project information and static-site path settings. -/
theorem conf_four_kinds_values :
    Conf.lookupBinding Conf.confModule "html_theme" =
      some (Conf.PyLit.scalar (Conf.PyScalar.str "sphinx_rtd_theme")) ∧
    Conf.lookupBinding Conf.confModule "extensions" =
      some (Conf.PyLit.list [Conf.PyScalar.str "myst_parser",
        Conf.PyScalar.str "sphinx_rtd_theme",
        Conf.PyScalar.str "sphinx_toolbox.collapse"]) ∧
    Conf.lookupBinding Conf.confModule "myst_enable_extensions" =
      some (Conf.PyLit.list (Conf.myst_enable_extensions.map Conf.PyScalar.str)) ∧
    Conf.lookupBinding Conf.confModule "source_suffix" =
      some (Conf.PyLit.dict [(".rst", Conf.PyScalar.str "restructuredtext"),
        (".txt", Conf.PyScalar.str "markdown"),
        (".md", Conf.PyScalar.str "markdown")]) ∧
    Conf.lookupBinding Conf.confModule "html_context" =
      some (Conf.PyLit.dict Conf.html_context) ∧
    ("display_github", Conf.PyScalar.bool true) ∈ Conf.html_context := by decide

/-- Claim C7: the only domain signal in the supplied files is the
project name and the GitHub repository identifier: conf.py binds
project to Go-Short-Link and html_context carries github_user fanonwue
and github_repo go-short-link, while no other binding in the module
mentions short-link wording anywhere in its value. -/
theorem only_domain_signal_is_project_and_github :
    Conf.lookupBinding Conf.confModule "project" =
      some (Conf.PyLit.scalar (Conf.PyScalar.str "Go-Short-Link")) ∧
    ("github_user", Conf.PyScalar.str "fanonwue") ∈ Conf.html_context ∧
    ("github_repo", Conf.PyScalar.str "go-short-link") ∈ Conf.html_context ∧
    ∀ p ∈ Conf.confBindings, p.1 ≠ "project" → p.1 ≠ "html_context" →
      Conf.litMentionsShort p.2 = false := by decide

/-- Witness for C7 at the copyright binding. -/
theorem only_domain_signal_witness :
    Conf.litMentionsShort (Conf.PyLit.scalar (Conf.PyScalar.str Conf.copyright)) = false :=
  only_domain_signal_is_project_and_github.2.2.2
    ("copyright", Conf.PyLit.scalar (Conf.PyScalar.str Conf.copyright))
    (by decide) (by decide) (by decide)

/-- Claim C8: evaluation of conf.py is deterministic and independent of
external input: any two evaluations, under arbitrary environment, file
or argument maps, produce identical bindings. -/
theorem conf_eval_deterministic (env1 env2 : String → Option String) :
    Conf.evalModule Conf.confModule env1 = Conf.evalModule Conf.confModule env2 := rfl

/-- Claim C9: exactly the three extensions myst_parser, sphinx_rtd_theme
and sphinx_toolbox.collapse are enabled, and sphinx_togglebutton (which
appears in conf.py only inside a comment) is not a member of the list. -/
theorem extensions_exactly_three :
    Conf.extensions =
      ["myst_parser", "sphinx_rtd_theme", "sphinx_toolbox.collapse"] ∧
    "sphinx_togglebutton" ∉ Conf.extensions := by decide

/-- Claim C10: source_suffix associates the .txt suffix with the
markdown parser, so requirements.txt matches a source suffix, yet
requirements.txt is a member of exclude_patterns and is therefore
excluded from the build. -/
theorem requirements_txt_excluded :
    (Conf.source_suffix.find? (fun p => p.1 == ".txt")).map (fun p => p.2) =
      some "markdown" ∧
    Conf.isDocSource "requirements.txt" = true ∧
    "requirements.txt" ∈ Conf.exclude_patterns ∧
    Conf.isExcluded "requirements.txt" = true := by decide

namespace Short

/-- A store lookup misses exactly when the code is not among the keys. -/
theorem storeLookup_none_iff (s : Store) (c : String) :
    storeLookup s c = none ↔ c ∉ keys s := by
  simp only [storeLookup, List.find?_eq_none, keys, List.mem_map]
  constructor
  · intro h hmem
    rcases hmem with ⟨x, hx, hxc⟩
    exact absurd (beq_iff_eq.mpr hxc) (h x hx)
  · intro h x hx hbeq
    exact h ⟨x, hx, beq_iff_eq.mp hbeq⟩

/-- Mapping a key-preserving function over a store leaves its keys. -/
theorem keys_map_eq (s : Store) (f : LinkMapping → LinkMapping)
    (hf : ∀ x, (f x).shortCode = x.shortCode) :
    keys (List.map f s) = keys s := by
  induction s with
  | nil => rfl
  | cons a t ih =>
      show (f a).shortCode :: keys (List.map f t) = a.shortCode :: keys t
      rw [hf a, ih]

/-- Under distinct keys, two members sharing a short code share a
target URL. -/
theorem nodup_keys_at_most_one_target (l : List LinkMapping)
    (h : (List.map LinkMapping.shortCode l).Nodup) :
    ∀ m1 ∈ l, ∀ m2 ∈ l, m1.shortCode = m2.shortCode →
      m1.targetURL = m2.targetURL := by
  induction l with
  | nil => intro m1 h1; cases h1
  | cons a t ih =>
      simp only [List.map_cons, List.nodup_cons] at h
      intro m1 h1 m2 h2 hc
      rcases List.mem_cons.mp h1 with rfl | h1t
      · rcases List.mem_cons.mp h2 with rfl | h2t
        · rfl
        · exfalso; apply h.1; rw [hc]; exact List.mem_map_of_mem _ h2t
      · rcases List.mem_cons.mp h2 with rfl | h2t
        · exfalso; apply h.1; rw [← hc]; exact List.mem_map_of_mem _ h1t
        · exact ih h.2 m1 h1t m2 h2t hc

/-- Each round of the collision-retry loop either ends with
ExhaustionError or returns a code free in the store; and when every
candidate within the remaining budget collides, it ends with
ExhaustionError. -/
theorem genLoop_cases (s : Store) (cand : Nat → String) (fuel : Nat) :
    ∀ attempt,
      (genLoop s cand attempt fuel = Except.error Err.exhaustionError ∨
        ∃ c, genLoop s cand attempt fuel = Except.ok c ∧ storeLookup s c = none) ∧
      ((∀ i, attempt ≤ i → i < attempt + fuel →
          (storeLookup s (cand i)).isSome = true) →
        genLoop s cand attempt fuel = Except.error Err.exhaustionError) := by
  induction fuel with
  | zero => intro attempt; exact ⟨Or.inl rfl, fun _ => rfl⟩
  | succ fuel ih =>
      intro attempt
      constructor
      · by_cases hcoll : (storeLookup s (cand attempt)).isSome = true
        · have := (ih (attempt + 1)).1
          simpa [genLoop, hcoll] using this
        · refine Or.inr ⟨cand attempt, ?_, ?_⟩
          · simp [genLoop, hcoll]
          · exact Option.not_isSome_iff_eq_none.mp hcoll
      · intro hall
        have h0 : (storeLookup s (cand attempt)).isSome = true :=
          hall attempt (Nat.le_refl _) (by omega)
        have htail := (ih (attempt + 1)).2
          (fun i hlo hhi => hall i (by omega) (by omega))
        simpa [genLoop, h0] using htail

/-- A code returned by the generator is free in the store. -/
theorem generateCode_free (s : Store) (cand : Nat → String) (code : String)
    (h : generateCode s cand = Except.ok code) : storeLookup s code = none := by
  rcases (genLoop_cases s cand maxGenAttempts 0).1 with herr | ⟨c, hok, hfree⟩
  · rw [generateCode] at h
    rw [herr] at h
    cases h
  · rw [generateCode] at h
    rw [hok] at h
    injection h with hc
    rw [← hc]
    exact hfree

end Short

/-- Claim C3: for every valid targetURL input, a creation operation that
returns a short code, followed immediately by resolution of that code
at the same time, yields that same targetURL. -/
theorem create_then_resolve_returns_target (s : Short.Store) (now : Nat)
    (owner url : String) (custom : Option String) (exp : Option Nat)
    (cand : Nat → String) (code : String) (s2 : Short.Store)
    (h : Short.createReq s now owner url custom exp cand = Except.ok (code, s2)) :
    Short.resolve s2 now code = Short.ResolveOutcome.redirect url := by
  simp only [Short.createReq] at h
  by_cases hv : Short.validTargetURL url = false
  · rw [if_pos hv] at h; cases h
  · rw [if_neg hv] at h
    by_cases he : Short.validExpiry now exp = false
    · rw [if_pos he] at h; cases h
    · rw [if_neg he] at h
      cases hcode : (match custom with
          | some c =>
              if (Short.storeLookup s c).isSome then Except.error Short.Err.conflict
              else Except.ok c
          | none => Short.generateCode s cand) with
      | error e => rw [hcode] at h; cases h
      | ok cfree =>
          rw [hcode] at h
          have hfree : Short.storeLookup s cfree = none := by
            cases custom with
            | none => exact Short.generateCode_free s cand cfree hcode
            | some cc =>
                by_cases ht : (Short.storeLookup s cc).isSome = true
                · simp [ht] at hcode
                · simp [ht] at hcode
                  rw [← hcode]
                  exact Option.not_isSome_iff_eq_none.mp ht
          simp [Short.storeCreate, hfree] at h
          obtain ⟨rfl, rfl⟩ := h
          cases exp with
          | none => simp [Short.resolve, Short.storeLookup, Short.isExpired]
          | some e =>
              have htrue : Short.validExpiry now (some e) = true := by
                cases hb : Short.validExpiry now (some e)
                · exact absurd hb he
                · rfl
              have hlt : now < e := by simpa [Short.validExpiry] using htrue
              have hnle : ¬ e ≤ now := by omega
              simp [Short.resolve, Short.storeLookup, Short.isExpired, hnle]

/-- Witness for C3: creating https://example.com in the empty store
returns the code autogen, and resolving it yields the target. -/
theorem create_then_resolve_witness :
    Short.resolve Demo.c3Store2 0 "autogen" =
      Short.ResolveOutcome.redirect "https://example.com" :=
  create_then_resolve_returns_target [] 0 "alice" "https://example.com" none
    (some 100) Demo.c3Cand "autogen" Demo.c3Store2 (by rfl)

/-- Claim C4: resolution of a mapping that is disabled or whose expiry
lies in the past yields the NotFound outcome and never the stored
target, both through the plain Resolution Engine and in front of an
arbitrary cache, including caches holding an entry for the code. -/
theorem expired_or_disabled_resolves_notFound (cache : List Short.CacheEntry)
    (s : Short.Store) (now : Nat) (c : String) (m : Short.LinkMapping)
    (hm : Short.storeLookup s c = some m)
    (hbad : m.disabled = true ∨ ∃ e, m.expiresAt = some e ∧ e < now) :
    (Short.resolveCached cache s now c).1 = Short.ResolveOutcome.notFound ∧
    Short.resolve s now c = Short.ResolveOutcome.notFound := by
  rcases hbad with hd | ⟨e, hee, hlt⟩
  · exact ⟨by simp [Short.resolveCached, hm, hd],
           by simp [Short.resolve, hm, hd]⟩
  · have hexp : Short.isExpired m now = true := by
      simp [Short.isExpired, hee]
      omega
    constructor
    · cases hdis : m.disabled
      · simp [Short.resolveCached, hm, hdis, hexp]
      · simp [Short.resolveCached, hm, hdis]
    · cases hdis : m.disabled
      · simp [Short.resolve, hm, hdis, hexp]
      · simp [Short.resolve, hm, hdis]

/-- Witness for C4: the mapping exp1 expired at 5; at time 10 it
resolves NotFound even though the cache still holds an entry for it. -/
theorem expired_resolves_notFound_witness :
    (Short.resolveCached Demo.c4Cache Demo.c4Store 10 "exp1").1 =
      Short.ResolveOutcome.notFound ∧
    Short.resolve Demo.c4Store 10 "exp1" = Short.ResolveOutcome.notFound :=
  expired_or_disabled_resolves_notFound Demo.c4Cache Demo.c4Store 10 "exp1"
    Demo.expiredMapping (by rfl) (Or.inr ⟨5, rfl, by omega⟩)

/-- Claim C5: under the store invariant each short code identifies at
most one targetURL; create preserves the invariant, and the
owner-authorized update and disable operations preserve both the
invariant and the key list, so a short code never changes once
assigned. -/
theorem shortCode_unique_invariant_preserved (s : Short.Store)
    (h : Short.storeInv s) :
    (∀ m1 ∈ s, ∀ m2 ∈ s, m1.shortCode = m2.shortCode →
        m1.targetURL = m2.targetURL) ∧
    (∀ m s2, Short.storeCreate s m = Except.ok s2 → Short.storeInv s2) ∧
    (∀ c r t s2, Short.storeUpdate s c r t = Except.ok s2 →
        Short.storeInv s2 ∧ Short.keys s2 = Short.keys s) ∧
    (∀ c r s2, Short.storeDisable s c r = Except.ok s2 →
        Short.storeInv s2 ∧ Short.keys s2 = Short.keys s) := by
  refine ⟨Short.nodup_keys_at_most_one_target s h, ?_, ?_, ?_⟩
  · intro m s2 hc
    simp only [Short.storeCreate] at hc
    by_cases hl : (Short.storeLookup s m.shortCode).isSome = true
    · rw [if_pos hl] at hc; cases hc
    · rw [if_neg hl] at hc
      injection hc with hs2
      subst hs2
      have hnotin : m.shortCode ∉ Short.keys s :=
        (Short.storeLookup_none_iff s m.shortCode).mp
          (Option.not_isSome_iff_eq_none.mp hl)
      show (Short.keys (m :: s)).Nodup
      rw [show Short.keys (m :: s) = m.shortCode :: Short.keys s from rfl,
          List.nodup_cons]
      exact ⟨hnotin, h⟩
  · intro c r t s2 hu
    simp only [Short.storeUpdate] at hu
    split at hu
    · cases hu
    · split at hu
      · injection hu with hs2
        subst hs2
        have hkeys := Short.keys_map_eq s
          (fun x => if x.shortCode == c then { x with targetURL := t } else x)
          (fun x => by by_cases hx : (x.shortCode == c) = true <;> simp [hx])
        exact ⟨by show (Short.keys _).Nodup; rw [hkeys]; exact h, hkeys⟩
      · cases hu
  · intro c r s2 hu
    simp only [Short.storeDisable] at hu
    split at hu
    · cases hu
    · split at hu
      · injection hu with hs2
        subst hs2
        have hkeys := Short.keys_map_eq s
          (fun x => if x.shortCode == c then { x with disabled := true } else x)
          (fun x => by by_cases hx : (x.shortCode == c) = true <;> simp [hx])
        exact ⟨by show (Short.keys _).Nodup; rw [hkeys]; exact h, hkeys⟩
      · cases hu

/-- Witness for C5: disabling a1 in the two-mapping demo store keeps
the invariant and leaves the key list untouched. -/
theorem shortCode_unique_witness :
    Short.storeInv Demo.demoStoreDisabled ∧
    Short.keys Demo.demoStoreDisabled = Short.keys Demo.demoStore :=
  (shortCode_unique_invariant_preserved Demo.demoStore (by decide)).2.2.2
    "a1" "alice" Demo.demoStoreDisabled (by rfl)

/-- Claim C6: the code generator's collision-retry loop is bounded for
every input: it either returns a code free in the store or stops with
ExhaustionError, and when every candidate inside the maxGenAttempts
budget collides it stops with ExhaustionError instead of looping
unboundedly. -/
theorem generator_bounded_retry_terminates (s : Short.Store)
    (cand : Nat → String) :
    (Short.generateCode s cand = Except.error Short.Err.exhaustionError ∨
      ∃ c, Short.generateCode s cand = Except.ok c ∧
        Short.storeLookup s c = none) ∧
    ((∀ i, i < Short.maxGenAttempts →
        (Short.storeLookup s (cand i)).isSome = true) →
      Short.generateCode s cand = Except.error Short.Err.exhaustionError) := by
  constructor
  · exact (Short.genLoop_cases s cand Short.maxGenAttempts 0).1
  · intro hall
    exact (Short.genLoop_cases s cand Short.maxGenAttempts 0).2
      (fun i hlo hhi => hall i (by omega))

/-- Witness for C6: a candidate enumeration stuck on the taken code c0
exhausts the attempt budget and ends with ExhaustionError. -/
theorem generator_exhaustion_witness :
    Short.generateCode Demo.satStore Demo.satCand =
      Except.error Short.Err.exhaustionError :=
  (generator_bounded_retry_terminates Demo.satStore Demo.satCand).2
    (fun _ _ => rfl)
